import Mathlib

/-!
Shallow embedding of the trust/identity core of the open-trust/ot-go-lib
Go library, together with theorems settling the specification claims.

Modelling conventions:
* Go strings are modelled as `List Char` (`Str`).  All strings the library
  accepts are ASCII, so Go's byte length coincides with the character count
  on every accepted value, and the rune loops of the source iterate exactly
  over these characters.
* Go `time.Time` instants are modelled as `Int` nanoseconds since the epoch;
  the zero value of `time.Time` is modelled as `0`.  `time.Second` is
  `1000000000` nanoseconds.  Where the source multiplies durations in Go's
  `int64` arithmetic, the model reduces the product with an explicit
  two's-complement wrap (`wrapInt64`).
* Fallible Go functions returning `(T, error)` are modelled as `Except Str T`.
* A Go runtime panic (such as an out-of-range slice index) is modelled by
  `Option`: `none` is a panic, `some r` a normal return of `r`.
* External collaborators (the jwx JWT parser, JWK key parsing, HTTP, endpoint
  selection) are passed in as oracle functions, so the theorems hold for every
  possible behaviour of those collaborators.
-/

namespace OtGo

/-- Go strings, modelled as their list of runes. -/
abbrev Str := List Char

/-- Model of `strconv.QuoteRune` for the error messages of `checkRunes`; the model
only renders the rune between single-quote characters (code point 39). -/
def quoteRune (c : Char) : Str :=
  Char.ofNat 39 :: c :: [Char.ofNat 39]

/-- One rune of the OTID grammar: lower-case ALPHA / DIGIT / "." / "-" / "_"
(the `case` arms of `checkRunes` in the source). -/
def allowedRune (c : Char) : Bool :=
  ('a' ≤ c && c ≤ 'z') || ('0' ≤ c && c ≤ '9') || (c = '.' || c = '-' || c = '_')

/-- One of the three punctuation runes that may not start a segment. -/
def punctRune (c : Char) : Bool :=
  c = '.' || c = '-' || c = '_'

/-- Model of `checkRunes` of the source (otid.go): walks the runes of `s` carrying the
index `i`; returns the empty string on success and a non-empty error message
otherwise.  A punctuation rune at index 0 is rejected. -/
def checkRunes : Nat → Str → Str
  | _, [] => []
  | i, c :: rest =>
    if ('a' ≤ c && c ≤ 'z') || ('0' ≤ c && c ≤ '9') then
      checkRunes (i + 1) rest
    else if c = '.' || c = '-' || c = '_' then
      if i = 0 then "start with ".data ++ quoteRune c
      else checkRunes (i + 1) rest
    else "invalid rune ".data ++ quoteRune c

/-- Model of `TrustDomain.Validate`: empty domains and domains with bad runes are
rejected; returns the error message, `[]` meaning no error. -/
def trustDomainValidate (td : Str) : Str :=
  if td = [] then "otgo.TrustDomain.Validate: trust domain required".data
  else
    let qr := checkRunes 0 td
    if qr ≠ [] then "otgo.TrustDomain.Validate: ".data ++ qr
    else []

/-- The `OTID` struct: trust domain, subject type, subject id, and the
serialized form `otid` maintained by `build()`. -/
structure OTID where
  trustDomain : Str
  subjectType : Str
  subjectID : Str
  otid : Str
deriving DecidableEq, Repr

/-- Constant `otidMaxSize` of the source. -/
def otidMaxSize : Nat := 512

/-- Model of `OTID.build`: caches the serialized representation
`otid:<td>[:<type>:<id>]` in the `otid` field. -/
def OTID.build (id : OTID) : OTID :=
  { id with otid :=
      "otid:".data ++ id.trustDomain ++
        (if id.subjectType ≠ [] then
          ':' :: id.subjectType ++ ':' :: id.subjectID
        else []) }

/-- Model of `OTID.validate` (lower-case) of the source: trust domain first, then the
subject pair when present, then the length of the serialized form. -/
def OTID.validate (id : OTID) : Str :=
  let e := trustDomainValidate id.trustDomain
  if e ≠ [] then e
  else
    let e2 :=
      if id.subjectType ≠ [] ∨ id.subjectID ≠ [] then
        if id.subjectType = [] then "invalid OTID, subject type required".data
        else
          let q := checkRunes 0 id.subjectType
          if q ≠ [] then "invalid OTID subject type: ".data ++ q
          else if id.subjectID = [] then "invalid OTID, subject ID required".data
          else
            let q2 := checkRunes 0 id.subjectID
            if q2 ≠ [] then "invalid OTID subject id: ".data ++ q2
            else []
      else []
    if e2 ≠ [] then e2
    else if id.otid.length > otidMaxSize then
      "invalid OTID, its length ".data ++ (Nat.repr id.otid.length).data ++
        " is too large".data
    else []

/-- Model of `OTID.Validate` (exported): wraps the message of `validate`. -/
def OTID.Validate (id : OTID) : Except Str Unit :=
  if id.validate ≠ [] then
    Except.error ("otgo.OTID.Validate: ".data ++ id.validate)
  else Except.ok ()

/-- Model of `OTID.Equal`: equality of the serialized forms. -/
def OTID.Equal (id another : OTID) : Bool :=
  id.otid = another.otid

/-- Model of `OTID.IsDomainID`. -/
def OTID.IsDomainID (id : OTID) : Bool :=
  id.subjectType = [] && id.subjectID = []

/-- Model of `OTID.String`: the cached serialized representation. -/
def OTID.string (id : OTID) : Str :=
  id.otid

/-- Model of `TrustDomain.OTID`: the domain OTID, built. -/
def tdOTID (td : Str) : OTID :=
  OTID.build { trustDomain := td, subjectType := [], subjectID := [], otid := [] }

/-- Model of `TrustDomain.NewOTID`: the subject OTID inside `td`, built but not yet
validated. -/
def tdNewOTID (td subjectType subjectID : Str) : OTID :=
  OTID.build { trustDomain := td, subjectType := subjectType,
               subjectID := subjectID, otid := [] }

/-- Package-level `NewOTID`: zero or exactly two subject parameters, both
non-empty in the latter case; builds and validates. -/
def NewOTID (trustDomain : Str) (subject : List Str) : Except Str OTID :=
  match subject with
  | [] =>
    let id := tdOTID trustDomain
    match id.Validate with
    | Except.error e => Except.error e
    | Except.ok _ => Except.ok id
  | [t, i] =>
    if t = [] ∨ i = [] then
      Except.error "otgo.NewOTID: invalid subject params".data
    else
      let id := tdNewOTID trustDomain t i
      match id.Validate with
      | Except.error e => Except.error e
      | Except.ok _ => Except.ok id
  | _ => Except.error "otgo.NewOTID: invalid subject params".data

/-- Model of `strings.Split(s, ":")`: always returns at least one segment. -/
def splitOnColon : Str → List Str
  | [] => [[]]
  | c :: rest =>
    if c = ':' then [] :: splitOnColon rest
    else
      match splitOnColon rest with
      | [] => [[c]]
      | s :: ss => (c :: s) :: ss

/-- Model of `ParseOTID`: split on `:`, require at least two segments, the literal
`otid` scheme, and delegate the rest to `NewOTID`. -/
def ParseOTID (s : Str) : Except Str OTID :=
  if (splitOnColon s).length < 2 then
    Except.error "otgo.ParseOTID: invalid OTID string".data
  else if (splitOnColon s).head? ≠ some "otid".data then
    Except.error "otgo.ParseOTID: invalid OTID scheme".data
  else
    match splitOnColon s with
    | [] => Except.error "otgo.ParseOTID: invalid OTID string".data
    | _ :: td :: rest => NewOTID td rest
    | _ => Except.error "otgo.ParseOTID: invalid OTID string".data

/-- The per-segment conditions the specification names for the OTID
grammar: only runes `[a-z0-9._-]`, the first not `.`, `-` or `_`. -/
def segOk (s : Str) : Bool :=
  s.all allowedRune &&
    (match s with
     | [] => true
     | c :: _ => !(punctRune c))

/-! ## OTVID (otvid.go) -/

/-- Constant `time.Second` in nanoseconds. -/
def second : Int := 1000000000

/-- Model of `t.Truncate(time.Second)` for epoch instants. -/
def truncSec (t : Int) : Int :=
  (t / second) * second

/-- Reduction of an unbounded integer to Go's two's-complement `int64`:
the remainder modulo `2^64` shifted into `[-2^63, 2^63)`.  Go duration
multiplication such as `time.Duration(hint) * time.Second` wraps this way. -/
def wrapInt64 (x : Int) : Int :=
  if x % 2 ^ 64 < 2 ^ 63 then x % 2 ^ 64 else x % 2 ^ 64 - 2 ^ 64

/-- A JWT claim value; free-form claims may carry any of these shapes
(`raw` stands for every other `interface{}` value). -/
inductive ClaimValue where
  | str (s : Str)
  | strList (l : List Str)
  | time (t : Int)
  | raw (n : Nat)
deriving DecidableEq, Repr

/-- A JWT claim set in insertion order; `jwt.Token.Set` overwrites the
existing entry for the key, else appends. -/
abbrev Claims := List (Str × ClaimValue)

/-- Model of `jwt.Token.Set`. -/
def setClaim (t : Claims) (k : Str) (v : ClaimValue) : Claims :=
  match t with
  | [] => [(k, v)]
  | (k', v') :: rest =>
    if k' = k then (k, v) :: rest else (k', v') :: setClaim rest k v

/-- Claim lookup by key. -/
def getClaim (t : Claims) (k : Str) : Option ClaimValue :=
  match t with
  | [] => none
  | (k', v') :: rest => if k' = k then some v' else getClaim rest k

/-- The `OTVID` struct of otvid.go (single-audience revision). -/
structure OTVID where
  id : OTID
  issuer : OTID
  audience : OTID
  expiry : Int
  issuedAt : Int
  releaseID : Str
  claims : Claims
  token : Str
deriving DecidableEq, Repr

/-- Constant `otvidMaxSize` of the source. -/
def otvidMaxSize : Nat := 2048

/-- Model of `OTVID.ShouldRenew` of otvid.go:
`time.Now().Add(time.Second * 60).After(o.Expiry)`. -/
def OTVID.shouldRenew (o : OTVID) (now : Int) : Bool :=
  now + 60 * second > o.expiry

/-- The claim-emission part of `OTVID.Sign` (otvid.go lines 147-203), with
the cryptographic signing abstracted away: merge the free-form `Claims`
first, then set `sub`, `iss`, `aud`, `rid` (when non-empty), stamp
`IssuedAt`, set `iat`, default `Expiry`, set `exp`.  Returns the updated
OTVID together with the emitted claim set.  The fold models Go's map
iteration (the final claim set does not depend on its order because every
reserved claim is overwritten afterwards). -/
def OTVID.signClaims (o : OTVID) (now : Int) : OTVID × Claims :=
  let t := o.claims.foldl (fun t kv => setClaim t kv.1 kv.2) []
  let t := setClaim t "sub".data (ClaimValue.str o.id.string)
  let t := setClaim t "iss".data (ClaimValue.str o.issuer.string)
  let t := setClaim t "aud".data (ClaimValue.strList [o.audience.string])
  let t := if o.releaseID ≠ [] then
      setClaim t "rid".data (ClaimValue.str o.releaseID)
    else t
  let o := { o with issuedAt := truncSec now }
  let t := setClaim t "iat".data (ClaimValue.time o.issuedAt)
  let o := if o.expiry = 0 then { o with expiry := o.issuedAt + 600 * second }
    else o
  let t := setClaim t "exp".data (ClaimValue.time o.expiry)
  (o, t)

/-- What the model reads off a parsed `jwt.Token`. -/
structure TokenData where
  sub : Str
  iss : Str
  aud : List Str
  rid : Option ClaimValue
  exp : Int
  iat : Int
  privateClaims : Claims
deriving DecidableEq, Repr

/-- Model of `OTVID.from` of otvid.go (lines 56-86).  `t.Audience()[0]` carries no
bounds check in the source (marked `// TODO`), so an empty audience list is
a Go panic, modelled as `none`. -/
def OTVID.fromToken (token : Str) (t : TokenData) : Option (Except Str OTVID) :=
  match ParseOTID t.sub with
  | Except.error e => some (Except.error e)
  | Except.ok id =>
  match ParseOTID t.iss with
  | Except.error e => some (Except.error e)
  | Except.ok issuer =>
  match t.aud.head? with
  | none => none
  | some aud0 =>
  match ParseOTID aud0 with
  | Except.error e => some (Except.error e)
  | Except.ok audience =>
  let rid : Except Str Str :=
    match t.rid with
    | none => Except.ok []
    | some (ClaimValue.str s) => Except.ok s
    | some _ => Except.error "invalid rid field, must be a string".data
  match rid with
  | Except.error e => some (Except.error e)
  | Except.ok releaseID =>
  let claims := t.privateClaims
  let claims := setClaim claims "sub".data (ClaimValue.str t.sub)
  let claims := setClaim claims "iss".data (ClaimValue.str t.iss)
  let claims := setClaim claims "aud".data (ClaimValue.strList t.aud)
  let claims := setClaim claims "ext".data (ClaimValue.time t.exp)
  let claims := setClaim claims "iat".data (ClaimValue.time t.iat)
  some (Except.ok
    { id := id, issuer := issuer, audience := audience,
      expiry := t.exp, issuedAt := t.iat, releaseID := releaseID,
      claims := claims, token := token })

/-- Model of `OTVID.Validate`: the three OTIDs must validate. -/
def OTVID.Validate (o : OTVID) : Except Str Unit :=
  match o.id.Validate with
  | Except.error e => Except.error ("sub OTID invalid: ".data ++ e)
  | Except.ok _ =>
  match o.issuer.Validate with
  | Except.error e => Except.error ("iss OTID invalid: ".data ++ e)
  | Except.ok _ =>
  match o.audience.Validate with
  | Except.error e => Except.error ("aud OTID invalid: ".data ++ e)
  | Except.ok _ => Except.ok ()

/-- Model of `OTVID.verifyClaims`: issuer and audience must match and the document
must not be expired. -/
def OTVID.verifyClaims (o : OTVID) (issuer audience : OTID) (now : Int) :
    Except Str Unit :=
  if ¬ (o.issuer.Equal issuer = true) then
    Except.error "otgo.OTVID.Verify: issuer not satisfied".data
  else if ¬ (o.audience.Equal audience = true) then
    Except.error "otgo.OTVID.Verify: audience not satisfied".data
  else if ¬ (truncSec now < o.expiry) then
    Except.error "otgo.OTVID.Validate: expiration time not satisfied".data
  else Except.ok ()

/-- The token-format error of `ParseOTVID`/`ParseOTVIDInsecure`. -/
def tokenLengthError (l : Nat) : Str :=
  "invalid OTVID token with length ".data ++ (Nat.repr l).data

/-- Model of `ParseOTVID` (otvid.go lines 205-229): the length bounds are checked
before anything else, then the keyset requirement, then signature
verification and claim extraction.  `parseJWT` is the oracle for
`jwt.ParseString` with key verification; `haveKeys` is whether the passed
keyset pointer is non-nil.  `none` is a Go panic. -/
def ParseOTVID (token : Str) (haveKeys : Bool)
    (parseJWT : Str → Except Str TokenData)
    (issuer audience : OTID) (now : Int) : Option (Except Str OTVID) :=
  if token.length < 64 ∨ token.length > 2048 then
    some (Except.error (tokenLengthError token.length))
  else if ¬ (haveKeys = true) then
    some (Except.error "otgo.ParseOTVID: public keys required".data)
  else
    match parseJWT token with
    | Except.error e => some (Except.error e)
    | Except.ok t =>
    match OTVID.fromToken token t with
    | none => none
    | some (Except.error e) => some (Except.error e)
    | some (Except.ok vid) =>
    match vid.Validate with
    | Except.error e => some (Except.error e)
    | Except.ok _ =>
    match vid.verifyClaims issuer audience now with
    | Except.error e => some (Except.error e)
    | Except.ok _ => some (Except.ok vid)

/-- Model of `ParseOTVIDInsecure` (otvid.go lines 231-249): length bounds first, then
unverified JWT parsing and claim extraction.  `none` is a Go panic. -/
def ParseOTVIDInsecure (token : Str)
    (parseJWT : Str → Except Str TokenData) : Option (Except Str OTVID) :=
  if token.length < 64 ∨ token.length > 2048 then
    some (Except.error (tokenLengthError token.length))
  else
    match parseJWT token with
    | Except.error e => some (Except.error e)
    | Except.ok t =>
    match OTVID.fromToken token t with
    | none => none
    | some (Except.error e) => some (Except.error e)
    | some (Except.ok vid) =>
    match vid.Validate with
    | Except.error e => some (Except.error e)
    | Except.ok _ => some (Except.ok vid)

/-! ## Domain renewer (renewer/cache code, bundled in src/jwx_test.go) -/

/-- Raw JWK JSON; the renewer never inspects its content. -/
abbrev RawKey := Str

/-- A parsed key; the renewer never inspects its content. -/
abbrev Key := Str

/-- The mutable state of a `domainRenewer` entry.  `ks = none` models the
nil `*JWKSet`. -/
structure DomainRenewerState where
  ks : Option (List Key)
  expiresAt : Int
  endpoint : Str
deriving DecidableEq, Repr

/-- The discovery response `domainConfigProxy`. -/
structure DomainConfigProxy where
  otid : OTID
  keys : List RawKey
  keysRefreshHint : Int
  serviceEndpoints : List Str
deriving DecidableEq, Repr

/-- Model of `stringsHas`. -/
def stringsHas (ss : List Str) (s : Str) : Bool :=
  ss.contains s

/-- Model of `domainRenewer.renew`: the discovery call result is `httpResult`
(`Except` for the HTTP error), `parseKeys` and `select` are the oracles for
`ParseKeys` and `SelectEndpoints`.  Mutation of the entry is modelled by
returning the new state next to the call result; every error path leaves
the state exactly as received, as in the source, where no field of `r` is
assigned before the last possible failure point.  The duration
`time.Duration(res.KeysRefreshHint) * time.Second` is an `int64` product in
the source and therefore wraps (`wrapInt64`) for hints above about
`9.2e9` seconds. -/
def domainRenew (td : Str) (r : DomainRenewerState)
    (httpResult : Except Str DomainConfigProxy)
    (parseKeys : List RawKey → Except Str (List Key))
    (select : List Str → Except Str Str)
    (now : Int) : Except Str Unit × DomainRenewerState :=
  match httpResult with
  | Except.error e => (Except.error e, r)
  | Except.ok res =>
    if ¬ (res.otid.Equal (tdOTID td) = true) then
      (Except.error "invalid OT-Auth config".data, r)
    else
      match parseKeys res.keys with
      | Except.error e => (Except.error e, r)
      | Except.ok keys =>
        let endpointStep : Except Str DomainRenewerState :=
          if r.endpoint = [] ∨ ¬ (stringsHas res.serviceEndpoints r.endpoint = true) then
            match select res.serviceEndpoints with
            | Except.error e => Except.error e
            | Except.ok endpoint => Except.ok { r with endpoint := endpoint }
          else Except.ok r
        match endpointStep with
        | Except.error e => (Except.error e, r)
        | Except.ok r1 =>
          let r2 := { r1 with ks := some keys }
          let r3 :=
            if res.keysRefreshHint > 1 then
              { r2 with expiresAt :=
                  now + wrapInt64 (res.keysRefreshHint * second) }
            else
              { r2 with expiresAt := now + 3600 * second }
          (Except.ok (), r3)

/-! ## Concrete fixtures used by witnesses and counterexamples -/

/-- A concrete OTVID with the given expiry; the other fields are immaterial
to the statements using it. -/
def sampleVID (expiry : Int) : OTVID :=
  { id := tdNewOTID "localhost".data "user".data "abc".data,
    issuer := tdOTID "localhost".data,
    audience := tdNewOTID "localhost".data "app".data "auth".data,
    expiry := expiry, issuedAt := 0, releaseID := [], claims := [], token := [] }

/-- A fresh domain renewer entry (nil keyset, no endpoint). -/
def sampleState : DomainRenewerState :=
  { ks := none, expiresAt := 0, endpoint := [] }

/-- A discovery response with the given `otid` and `keysRefreshHint`. -/
def sampleProxy (otid : OTID) (hint : Int) : DomainConfigProxy :=
  { otid := otid, keys := [], keysRefreshHint := hint,
    serviceEndpoints := [['e']] }

/-- A parsed JWT carrying valid `sub`/`iss` OTIDs and the given audience
list. -/
def sampleTokenData (aud : List Str) : TokenData :=
  { sub := "otid:localhost:user:abc".data, iss := "otid:localhost".data,
    aud := aud, rid := none, exp := 2 * second, iat := second,
    privateClaims := [] }

/-- A `ParseKeys` oracle that always succeeds. -/
def okKeys : List RawKey → Except Str (List Key) := fun _ => Except.ok []

/-- A `SelectEndpoints` oracle that always picks the endpoint `"e"`. -/
def okSelect : List Str → Except Str Str := fun _ => Except.ok ['e']

/-- A `jwt.ParseString` oracle that always fails. -/
def errJWT : Str → Except Str TokenData := fun _ => Except.error []

/-- A `jwt.ParseString` oracle that always returns `t`. -/
def okJWT (t : TokenData) : Str → Except Str TokenData := fun _ => Except.ok t

/-! ## Lemmas about claim sets -/

theorem getClaim_setClaim_same (t : Claims) (k : Str) (v : ClaimValue) :
    getClaim (setClaim t k v) k = some v := by
  induction t with
  | nil => simp [setClaim, getClaim]
  | cons kv rest ih =>
    obtain ⟨k', v'⟩ := kv
    by_cases h : k' = k
    · simp [setClaim, getClaim, h]
    · simp [setClaim, getClaim, h, ih]

theorem getClaim_setClaim_ne (t : Claims) (k k' : Str) (v : ClaimValue)
    (h : k' ≠ k) : getClaim (setClaim t k' v) k = getClaim t k := by
  induction t with
  | nil => simp [setClaim, getClaim, h]
  | cons kv rest ih =>
    obtain ⟨k0, v0⟩ := kv
    by_cases h0 : k0 = k'
    · subst h0; simp [setClaim, getClaim, h]
    · simp only [setClaim, if_neg h0]
      by_cases h1 : k0 = k
      · simp [getClaim, h1]
      · simp [getClaim, h1, ih]

/-- C1: for every OTVID and every free-form `Claims` map (including maps
holding entries keyed `sub`, `iss`, `aud`, `iat` or `exp`), the claim set
emitted by `Sign` has `sub` equal to the OTVID ID rendered as a string,
`iss` equal to its Issuer, `aud` equal to the one-element array holding its
Audience, and `iat`/`exp` equal to the (updated) `IssuedAt`/`Expiry`
fields: the reserved claims are written after the free-form map is merged,
so free-form entries can never override them. -/
theorem sign_emits_reserved_claims_last (o : OTVID) (now : Int) :
    getClaim (o.signClaims now).2 "sub".data = some (ClaimValue.str o.id.string) ∧
    getClaim (o.signClaims now).2 "iss".data = some (ClaimValue.str o.issuer.string) ∧
    getClaim (o.signClaims now).2 "aud".data =
      some (ClaimValue.strList [o.audience.string]) ∧
    getClaim (o.signClaims now).2 "iat".data =
      some (ClaimValue.time (o.signClaims now).1.issuedAt) ∧
    getClaim (o.signClaims now).2 "exp".data =
      some (ClaimValue.time (o.signClaims now).1.expiry) := by
  unfold OTVID.signClaims
  by_cases hr : o.releaseID = [] <;> by_cases he : o.expiry = 0 <;>
    simp [hr, he, getClaim_setClaim_same, getClaim_setClaim_ne, OTID.string]

/-! ## C2: ShouldRenew window -/

/-- C2 counterexample: at `now = 0`, an OTVID expiring 30 seconds later has
`ShouldRenew` true although now + 10 seconds is strictly before the expiry,
refuting "ShouldRenew() returns true if and only if the current time plus
10 seconds is at or after v.Expiry" (the source compares
`time.Now().Add(60 * time.Second).After(o.Expiry)`). -/
theorem shouldRenew_not_ten_second_window :
    ¬ (((sampleVID (30 * second)).shouldRenew 0 = true) ↔
        0 + 10 * second ≥ (sampleVID (30 * second)).expiry) := by
  decide

/-- C2 (amended): the method `ShouldRenew` returns true iff the current time plus
60 seconds is strictly after `v.Expiry`; every OTVID whose expiry is less
than 60 seconds away renews, and one whose expiry is 60 or more seconds
away does not. -/
theorem shouldRenew_sixty_second_window (o : OTVID) (now : Int) :
    ((o.shouldRenew now = true) ↔ now + 60 * second > o.expiry) ∧
    (o.expiry < now + 60 * second → o.shouldRenew now = true) ∧
    (now + 60 * second ≤ o.expiry → o.shouldRenew now = false) := by
  refine ⟨?_, ?_, ?_⟩
  · simp [OTVID.shouldRenew]
  · intro h; simp only [OTVID.shouldRenew, gt_iff_lt, decide_eq_true_eq]; omega
  · intro h; simp only [OTVID.shouldRenew, gt_iff_lt, decide_eq_false_iff_not]; omega

/-- C2 witness: the amended statement evaluated at concrete OTVIDs 0 and 60
seconds from expiry. -/
theorem shouldRenew_sixty_second_window_witness :
    (sampleVID 0).shouldRenew 0 = true ∧
    (sampleVID (60 * second)).shouldRenew 0 = false :=
  ⟨(shouldRenew_sixty_second_window (sampleVID 0) 0).2.1 (by decide),
   (shouldRenew_sixty_second_window (sampleVID (60 * second)) 0).2.2 (by decide)⟩

/-! ## C6: token length bounds -/

/-- C6: for every token whose length is below 64 or above 2048, both
`ParseOTVID` and `ParseOTVIDInsecure` fail with the token-format error, for
every possible behaviour of the JWT parsing/verification oracle and before
any claim extraction: the result is the length error no matter what the
oracle would have returned. -/
theorem parse_rejects_out_of_bounds_lengths (token : Str)
    (h : token.length < 64 ∨ token.length > 2048) :
    (∀ haveKeys parseJWT issuer audience now,
        ParseOTVID token haveKeys parseJWT issuer audience now =
          some (Except.error (tokenLengthError token.length))) ∧
    (∀ parseJWT, ParseOTVIDInsecure token parseJWT =
        some (Except.error (tokenLengthError token.length))) := by
  constructor
  · intro haveKeys parseJWT issuer audience now
    unfold ParseOTVID
    rw [if_pos h]
  · intro parseJWT
    unfold ParseOTVIDInsecure
    rw [if_pos h]

/-- C6 witness: a 63-byte token is rejected by both parsers with the length
error, under a JWT oracle that would have failed anyway and one that would
have succeeded. -/
theorem parse_rejects_out_of_bounds_lengths_witness :
    ParseOTVID (List.replicate 63 'a') true errJWT (tdOTID "localhost".data)
        (tdOTID "localhost".data) 0 =
      some (Except.error (tokenLengthError 63)) ∧
    ParseOTVIDInsecure (List.replicate 63 'a') (okJWT (sampleTokenData [])) =
      some (Except.error (tokenLengthError 63)) := by
  have h := parse_rejects_out_of_bounds_lengths (List.replicate 63 'a')
      (Or.inl (by decide))
  constructor
  · have h1 := h.1 true errJWT (tdOTID "localhost".data) (tdOTID "localhost".data) 0
    simpa using h1
  · have h2 := h.2 (okJWT (sampleTokenData []))
    simpa using h2

/-! ## C7: renewal expiry from the refresh hint -/

/-- C7 counterexample: a successful renewal whose discovery response
advertises `keysRefreshHint = 2` sets `expiresAt` to now + 2 seconds, not
now + max(2 seconds, 1 hour): the source takes the hint verbatim whenever
it exceeds 1. -/
theorem domainRenew_small_hint_not_one_hour :
    (domainRenew "localhost".data sampleState
        (Except.ok (sampleProxy (tdOTID "localhost".data) 2))
        okKeys okSelect 0).1 = Except.ok () ∧
    (domainRenew "localhost".data sampleState
        (Except.ok (sampleProxy (tdOTID "localhost".data) 2))
        okKeys okSelect 0).2.expiresAt ≠
      0 + max (2 * second) (3600 * second) := by
  exact ⟨rfl, by decide⟩

/-- C7 (amended): after every successful domain renewal, the entry's
`expiresAt` equals the renewal time plus the duration
`time.Duration(keysRefreshHint) * time.Second` — an `int64` product, which
wraps for hints above about `9.2e9` seconds — when the hint exceeds 1, and
plus one hour otherwise; a small positive hint such as 2 seconds therefore
yields an expiry 2 seconds away, while a huge hint can wrap to a past
expiry. -/
theorem domainRenew_expiry_hint_or_hour (td : Str) (r : DomainRenewerState)
    (res : DomainConfigProxy) (parseKeys : List RawKey → Except Str (List Key))
    (select : List Str → Except Str Str) (now : Int)
    (h : (domainRenew td r (Except.ok res) parseKeys select now).1 = Except.ok ()) :
    (domainRenew td r (Except.ok res) parseKeys select now).2.expiresAt =
      now + (if res.keysRefreshHint > 1 then
               wrapInt64 (res.keysRefreshHint * second)
             else 3600 * second) := by
  by_cases hid : res.otid.Equal (tdOTID td) = true
  · cases hk : parseKeys res.keys with
    | error e => simp [domainRenew, hid, hk] at h
    | ok keys =>
      by_cases hep : r.endpoint = [] ∨
          stringsHas res.serviceEndpoints r.endpoint = false
      · cases hsel : select res.serviceEndpoints with
        | error e => simp [domainRenew, hid, hk, hep, hsel] at h
        | ok ep =>
          by_cases hh : res.keysRefreshHint > 1 <;>
            simp [domainRenew, hid, hk, hep, hsel, hh]
      · by_cases hh : res.keysRefreshHint > 1 <;>
          simp [domainRenew, hid, hk, hep, hh]
  · simp [domainRenew, hid] at h

/-- C7 witness: the amended statement evaluated at two successful
renewals at time 0: hint 2 lands the expiry 2 seconds away, and the huge
hint `1e10` wraps the `int64` duration product to a negative value, a past
expiry. -/
theorem domainRenew_expiry_hint_or_hour_witness :
    (domainRenew "localhost".data sampleState
        (Except.ok (sampleProxy (tdOTID "localhost".data) 2))
        okKeys okSelect 0).2.expiresAt = 2 * second ∧
    (domainRenew "localhost".data sampleState
        (Except.ok (sampleProxy (tdOTID "localhost".data) 10000000000))
        okKeys okSelect 0).2.expiresAt = 10000000000 * second - 2 ^ 64 := by
  constructor
  · exact (domainRenew_expiry_hint_or_hour "localhost".data sampleState
      (sampleProxy (tdOTID "localhost".data) 2) okKeys okSelect 0 rfl).trans
      (by decide)
  · exact (domainRenew_expiry_hint_or_hour "localhost".data sampleState
      (sampleProxy (tdOTID "localhost".data) 10000000000) okKeys okSelect 0
      rfl).trans (by decide)

/-! ## C8: renewal atomicity on the cross-domain mismatch -/

/-- C8: when the discovery response's `otid` differs from the expected
trust domain's OTID, `renew` returns an error and the entry keeps exactly
the keyset, endpoint and expiry it had before the attempt. -/
theorem domainRenew_mismatch_leaves_state (td : Str) (r : DomainRenewerState)
    (res : DomainConfigProxy) (parseKeys : List RawKey → Except Str (List Key))
    (select : List Str → Except Str Str) (now : Int)
    (h : ¬ (res.otid.Equal (tdOTID td) = true)) :
    domainRenew td r (Except.ok res) parseKeys select now =
      (Except.error "invalid OT-Auth config".data, r) := by
  simp [domainRenew, h]

/-- C8 witness: a renewal whose response claims the domain `other` instead
of `localhost` errors out and returns the entry unchanged. -/
theorem domainRenew_mismatch_leaves_state_witness :
    domainRenew "localhost".data sampleState
        (Except.ok (sampleProxy (tdOTID "other".data) 2)) okKeys okSelect 0 =
      (Except.error "invalid OT-Auth config".data, sampleState) :=
  domainRenew_mismatch_leaves_state "localhost".data sampleState
    (sampleProxy (tdOTID "other".data) 2) okKeys okSelect 0 (by decide)

/-! ## C10: missing audience is a panic, not an error -/

/-- C10: the claim extractor `OTVID.from` extracts the first audience element without a length
check (`t.Audience()[0]`, marked TODO in the source), so a well-formed
token within the length bounds whose claim set has no `aud` entry makes
`ParseOTVIDInsecure` hit an out-of-range index (the `none` panic marker)
instead of reporting an error through the result. -/
theorem parse_empty_audience_panics :
    ParseOTVIDInsecure (List.replicate 100 'a') (okJWT (sampleTokenData [])) =
      none := by
  rfl

/-! ## Lemmas about the OTID grammar -/

theorem append_left_ne_nil {p : Str} (q : Str) (h : p ≠ []) : p ++ q ≠ [] := by
  cases p with
  | nil => exact absurd rfl h
  | cons a as => simp

theorem checkRunes_allowed (s : Str) :
    ∀ i, checkRunes i s = [] → ∀ c ∈ s, allowedRune c = true := by
  induction s with
  | nil => intro i _ c hc; cases hc
  | cons a rest ih =>
    intro i h c hc
    rw [List.mem_cons] at hc
    unfold checkRunes at h
    by_cases h1 : (('a' ≤ a && a ≤ 'z') || ('0' ≤ a && a ≤ '9')) = true
    · rw [if_pos h1] at h
      rcases hc with rfl | hc
      · simp [allowedRune, h1]
      · exact ih (i + 1) h c hc
    · rw [if_neg h1] at h
      by_cases h2 : (a = '.' || a = '-' || a = '_') = true
      · rw [if_pos h2] at h
        by_cases h0 : i = 0
        · rw [if_pos h0] at h
          exact absurd h (append_left_ne_nil _ (by decide))
        · rw [if_neg h0] at h
          rcases hc with rfl | hc
          · simp [allowedRune, h2]
          · exact ih (i + 1) h c hc
      · rw [if_neg h2] at h
        exact absurd h (append_left_ne_nil _ (by decide))

theorem allowedRune_ne_colon {c : Char} (h : allowedRune c = true) : c ≠ ':' := by
  intro hc
  subst hc
  exact absurd h (by decide)

theorem checkRunes_no_colon {i : Nat} {s : Str} (h : checkRunes i s = []) :
    ':' ∉ s := by
  intro hm
  exact absurd rfl (allowedRune_ne_colon (checkRunes_allowed s i h ':' hm))

theorem checkRunes_zero_head {s : Str} (h : checkRunes 0 s = []) :
    ∀ c, s.head? = some c → punctRune c = false := by
  intro c hc
  by_cases hp : punctRune c = true
  · exfalso
    have hd : (c = '.' ∨ c = '-') ∨ c = '_' := by
      simpa [punctRune] using hp
    cases s with
    | nil => cases hc
    | cons a rest =>
      have hac : a = c := by simpa using hc
      subst hac
      rcases hd with (rfl | rfl) | rfl <;> simp [checkRunes, quoteRune] at h
  · simpa using hp

theorem segOk_of_checkRunes {s : Str} (h : checkRunes 0 s = []) :
    segOk s = true := by
  unfold segOk
  rw [Bool.and_eq_true]
  constructor
  · rw [List.all_eq_true]
    intro c hc
    exact checkRunes_allowed s 0 h c hc
  · cases s with
    | nil => rfl
    | cons a rest =>
      have ha := checkRunes_zero_head h a rfl
      simp [ha]

theorem trustDomainValidate_elim {td : Str} (h : trustDomainValidate td = []) :
    td ≠ [] ∧ checkRunes 0 td = [] := by
  simp only [trustDomainValidate] at h
  by_cases h0 : td = []
  · rw [if_pos h0] at h
    exact absurd h (by decide)
  · rw [if_neg h0] at h
    by_cases hq : checkRunes 0 td ≠ []
    · rw [if_pos hq] at h
      exact absurd h (append_left_ne_nil _ (by decide))
    · exact ⟨h0, not_not.mp hq⟩

theorem validate_elim {id : OTID} (h : id.validate = []) :
    (id.trustDomain ≠ [] ∧ checkRunes 0 id.trustDomain = []) ∧
    ((id.subjectType = [] ∧ id.subjectID = []) ∨
      (id.subjectType ≠ [] ∧ id.subjectID ≠ [] ∧
        checkRunes 0 id.subjectType = [] ∧ checkRunes 0 id.subjectID = [])) ∧
    id.otid.length ≤ 512 := by
  by_cases he : trustDomainValidate id.trustDomain = []
  · by_cases hsub : id.subjectType ≠ [] ∨ id.subjectID ≠ []
    · by_cases hty : id.subjectType = []
      · have hi : id.subjectID ≠ [] := by
          rcases hsub with hl | hr
          · exact absurd hty hl
          · exact hr
        exfalso; simp [OTID.validate, he, hty, hi] at h
      · by_cases hcty : checkRunes 0 id.subjectType = []
        · by_cases hi : id.subjectID = []
          · exfalso; simp [OTID.validate, he, hsub, hty, hcty, hi] at h
          · by_cases hci : checkRunes 0 id.subjectID = []
            · by_cases hlen : id.otid.length > otidMaxSize
              · exfalso
                simp [OTID.validate, he, hsub, hty, hcty, hi, hci, hlen] at h
              · exact ⟨trustDomainValidate_elim he,
                  Or.inr ⟨hty, hi, hcty, hci⟩, Nat.le_of_not_lt hlen⟩
            · exfalso; simp [OTID.validate, he, hsub, hty, hcty, hi, hci] at h
        · exfalso; simp [OTID.validate, he, hsub, hty, hcty] at h
    · push_neg at hsub
      by_cases hlen : id.otid.length > otidMaxSize
      · exfalso
        simp [OTID.validate, he, hlen, hsub.1, hsub.2] at h
      · exact ⟨trustDomainValidate_elim he,
          Or.inl ⟨hsub.1, hsub.2⟩, Nat.le_of_not_lt hlen⟩
  · exfalso; simp [OTID.validate, he] at h

theorem Validate_ok_iff (id : OTID) :
    id.Validate = Except.ok () ↔ id.validate = [] := by
  unfold OTID.Validate
  by_cases hv : id.validate ≠ []
  · rw [if_pos hv]
    exact ⟨fun h => Except.noConfusion h, fun h => absurd h hv⟩
  · rw [if_neg hv]
    exact ⟨fun _ => not_not.mp hv, fun _ => rfl⟩

theorem splitOnColon_eq_single (s : Str) (h : ':' ∉ s) :
    splitOnColon s = [s] := by
  induction s with
  | nil => rfl
  | cons c rest ih =>
    have hc : c ≠ ':' := fun hc => h (hc ▸ List.mem_cons_self c rest)
    have hrest : ':' ∉ rest := fun hm => h (List.mem_cons_of_mem _ hm)
    simp [splitOnColon, hc, ih hrest]

theorem splitOnColon_append (a b : Str) (h : ':' ∉ a) :
    splitOnColon (a ++ ':' :: b) = a :: splitOnColon b := by
  induction a with
  | nil => simp [splitOnColon]
  | cons c rest ih =>
    have hc : c ≠ ':' := fun hc => h (hc ▸ List.mem_cons_self c rest)
    have hrest : ':' ∉ rest := fun hm => h (List.mem_cons_of_mem _ hm)
    simp [splitOnColon, hc, ih hrest]

theorem newOTID_ok_elim {td : Str} {subject : List Str} {o : OTID}
    (h : NewOTID td subject = Except.ok o) :
    ∃ ty i, o = tdNewOTID td ty i ∧ o.validate = [] ∧
      ((subject = [] ∧ ty = [] ∧ i = []) ∨ subject = [ty, i]) := by
  rcases subject with _ | ⟨t, _ | ⟨i, _ | ⟨x, xs⟩⟩⟩
  · simp only [NewOTID] at h
    cases hv : (tdOTID td).Validate with
    | error e => rw [hv] at h; exact Except.noConfusion h
    | ok u =>
      rw [hv] at h
      cases u
      have ho : tdOTID td = o := by simpa using h
      subst ho
      exact ⟨[], [], rfl, (Validate_ok_iff _).mp hv, Or.inl ⟨rfl, rfl, rfl⟩⟩
  · simp only [NewOTID] at h
    exact Except.noConfusion h
  · simp only [NewOTID] at h
    by_cases hti : t = [] ∨ i = []
    · rw [if_pos hti] at h
      exact Except.noConfusion h
    · rw [if_neg hti] at h
      cases hv : (tdNewOTID td t i).Validate with
      | error e => rw [hv] at h; exact Except.noConfusion h
      | ok u =>
        rw [hv] at h
        cases u
        have ho : tdNewOTID td t i = o := by simpa using h
        subst ho
        exact ⟨t, i, rfl, (Validate_ok_iff _).mp hv, Or.inr rfl⟩
  · simp only [NewOTID] at h
    exact Except.noConfusion h

theorem parse_ok_shape {s : Str} {o : OTID} (h : ParseOTID s = Except.ok o) :
    ∃ td rest, splitOnColon s = "otid".data :: td :: rest ∧
      NewOTID td rest = Except.ok o := by
  simp only [ParseOTID] at h
  rcases hss : splitOnColon s with _ | ⟨a, _ | ⟨td, rest⟩⟩
  · rw [hss] at h
    simp at h
  · rw [hss] at h
    simp at h
  · rw [hss] at h
    by_cases ha : a = "otid".data
    · subst ha
      rw [if_neg (by simp only [List.length_cons]; omega),
          if_neg (by simp)] at h
      exact ⟨td, rest, rfl, h⟩
    · rw [if_neg (by simp only [List.length_cons]; omega)] at h
      rw [if_pos (by simp [ha])] at h
      exact absurd h (fun hh => Except.noConfusion hh)

theorem newOTID_nil_of_valid {td : Str} (h : (tdOTID td).validate = []) :
    NewOTID td [] = Except.ok (tdOTID td) := by
  simp only [NewOTID]
  rw [(Validate_ok_iff (tdOTID td)).mpr h]

theorem newOTID_pair_of_valid {td ty i : Str} (hty : ty ≠ []) (hi : i ≠ [])
    (h : (tdNewOTID td ty i).validate = []) :
    NewOTID td [ty, i] = Except.ok (tdNewOTID td ty i) := by
  simp only [NewOTID]
  rw [if_neg (by
    rintro (hl | hr)
    · exact hty hl
    · exact hi hr)]
  rw [(Validate_ok_iff (tdNewOTID td ty i)).mpr h]

theorem validate_seg_conditions {id : OTID} (h : id.validate = []) :
    id.trustDomain ≠ [] ∧ segOk id.trustDomain = true ∧
    ((id.subjectType = [] ∧ id.subjectID = []) ∨
      (segOk id.subjectType = true ∧ segOk id.subjectID = true)) ∧
    id.otid.length ≤ 512 := by
  obtain ⟨⟨h1, h2⟩, hsub, hlen⟩ := validate_elim h
  refine ⟨h1, segOk_of_checkRunes h2, ?_, hlen⟩
  rcases hsub with ⟨hty, hi⟩ | ⟨_, _, hcty, hci⟩
  · exact Or.inl ⟨hty, hi⟩
  · exact Or.inr ⟨segOk_of_checkRunes hcty, segOk_of_checkRunes hci⟩

/-! ## C3: the OTID grammar is necessary for acceptance -/

/-- C3: a string is accepted by the parse and validate functions only when every
segment consists solely of `[a-z0-9._-]`, no segment begins with `.`, `-`
or `_`, and the serialized form is at most 512 bytes; any violation fails
validation (stated as: every accepted OTID satisfies the conditions), and
the trust domain `.foo` is rejected. -/
theorem otid_accepts_only_grammar :
    (∀ s o, ParseOTID s = Except.ok o →
        o.trustDomain ≠ [] ∧ segOk o.trustDomain = true ∧
        ((o.subjectType = [] ∧ o.subjectID = []) ∨
          (segOk o.subjectType = true ∧ segOk o.subjectID = true)) ∧
        o.otid.length ≤ 512) ∧
    (∀ id : OTID, id.Validate = Except.ok () →
        id.trustDomain ≠ [] ∧ segOk id.trustDomain = true ∧
        ((id.subjectType = [] ∧ id.subjectID = []) ∨
          (segOk id.subjectType = true ∧ segOk id.subjectID = true)) ∧
        id.otid.length ≤ 512) ∧
    (∃ e, ParseOTID "otid:.foo".data = Except.error e) := by
  refine ⟨?_, ?_, ?_⟩
  · intro s o h
    obtain ⟨td, rest, _, hnew⟩ := parse_ok_shape h
    obtain ⟨ty, i, rfl, hval, _⟩ := newOTID_ok_elim hnew
    exact validate_seg_conditions hval
  · intro id h
    exact validate_seg_conditions ((Validate_ok_iff id).mp h)
  · exact ⟨_, rfl⟩

/-- C3 witness: the accepted string `otid:ot.example.com:user:joe`
satisfies every grammar condition. -/
theorem otid_accepts_only_grammar_witness :
    (tdNewOTID "ot.example.com".data "user".data "joe".data).trustDomain ≠ [] ∧
    segOk (tdNewOTID "ot.example.com".data "user".data "joe".data).trustDomain
      = true ∧
    (((tdNewOTID "ot.example.com".data "user".data "joe".data).subjectType = [] ∧
      (tdNewOTID "ot.example.com".data "user".data "joe".data).subjectID = []) ∨
      (segOk (tdNewOTID "ot.example.com".data "user".data "joe".data).subjectType
          = true ∧
       segOk (tdNewOTID "ot.example.com".data "user".data "joe".data).subjectID
          = true)) ∧
    (tdNewOTID "ot.example.com".data "user".data "joe".data).otid.length ≤ 512 :=
  otid_accepts_only_grammar.1 "otid:ot.example.com:user:joe".data
    (tdNewOTID "ot.example.com".data "user".data "joe".data) (by rfl)

/-! ## C4: ParseOTID after String is the identity on valid OTIDs -/

/-- C4: for every OTID that passes its validation, parsing its canonical
rendering succeeds and returns an `Equal` value.  Every OTID observable
outside the package is produced by a constructor that runs `build()`, so
the quantification ranges over built OTIDs via their three components. -/
theorem parseOTID_string_roundtrip (td ty i : Str)
    (h : (tdNewOTID td ty i).Validate = Except.ok ()) :
    ∃ o, ParseOTID (tdNewOTID td ty i).string = Except.ok o ∧
      o.Equal (tdNewOTID td ty i) = true := by
  have hval : (tdNewOTID td ty i).validate = [] := (Validate_ok_iff _).mp h
  obtain ⟨⟨htd, htdr⟩, hsub, hlen⟩ := validate_elim hval
  have ntd : ':' ∉ td := checkRunes_no_colon (show checkRunes 0 td = [] from htdr)
  refine ⟨tdNewOTID td ty i, ?_, by simp [OTID.Equal]⟩
  rcases hsub with ⟨hty, hi⟩ | ⟨hty, hi, hcty, hci⟩
  · have hty' : ty = [] := hty
    have hi' : i = [] := hi
    subst hty'
    subst hi'
    have hstr : (tdNewOTID td [] []).string = "otid".data ++ ':' :: (td ++ []) :=
      rfl
    rw [hstr, List.append_nil]
    unfold ParseOTID
    rw [splitOnColon_append "otid".data td (by decide),
      splitOnColon_eq_single td ntd]
    rw [if_neg (by simp only [List.length_cons]; omega), if_neg (by simp)]
    exact newOTID_nil_of_valid hval
  · have hty' : ty ≠ [] := hty
    have hi' : i ≠ [] := hi
    have hcty' : checkRunes 0 ty = [] := hcty
    have hci' : checkRunes 0 i = [] := hci
    have nty : ':' ∉ ty := checkRunes_no_colon hcty'
    have ni : ':' ∉ i := checkRunes_no_colon hci'
    have hstr : (tdNewOTID td ty i).string =
        "otid".data ++ ':' :: (td ++ ':' :: (ty ++ ':' :: i)) := by
      simp only [tdNewOTID, OTID.build, OTID.string]
      rw [if_pos hty']
      simp [List.append_assoc]
    rw [hstr]
    unfold ParseOTID
    rw [splitOnColon_append "otid".data _ (by decide),
      splitOnColon_append td _ ntd, splitOnColon_append ty _ nty,
      splitOnColon_eq_single i ni]
    rw [if_neg (by simp only [List.length_cons]; omega), if_neg (by simp)]
    exact newOTID_pair_of_valid hty' hi' hval

/-- C4 witness: the round-trip evaluated on `otid:localhost:user:abc`. -/
theorem parseOTID_string_roundtrip_witness :
    ∃ o, ParseOTID (tdNewOTID "localhost".data "user".data "abc".data).string =
        Except.ok o ∧
      o.Equal (tdNewOTID "localhost".data "user".data "abc".data) = true :=
  parseOTID_string_roundtrip "localhost".data "user".data "abc".data (by rfl)

/-! ## C5: subject segment counts and emptiness -/

/-- C5 counterexample: the package-level `NewOTID` with the subject pair
`("", "")` does not yield a domain OTID: it fails with the invalid-subject
error (only the `TrustDomain.NewOTID` method treats `("", "")` as a domain
OTID). -/
theorem newOTID_empty_pair_fails :
    NewOTID "localhost".data [[], []] =
      Except.error "otgo.NewOTID: invalid subject params".data ∧
    (NewOTID "localhost".data [[], []]).toOption = none := by
  exact ⟨rfl, rfl⟩

/-- C5 (amended): the functions `ParseOTID` and `NewOTID` accept exactly zero or exactly
two subject segments and fail for any other count, and fail when either
subject segment is empty — including the pair `("", "")`, which errors at
the package level (while the `TrustDomain.NewOTID` method with `("", "")`
builds a valid domain OTID); `otid:localhost:app:auth:` and the pairs
`("user", "")` and `("", "abc")` all fail. -/
theorem subject_segment_counts :
    (∀ td subject o, NewOTID td subject = Except.ok o →
        subject.length = 0 ∨ subject.length = 2) ∧
    (∀ s o, ParseOTID s = Except.ok o →
        (splitOnColon s).length = 2 ∨ (splitOnColon s).length = 4) ∧
    (∀ td t i, t = [] ∨ i = [] →
        NewOTID td [t, i] =
          Except.error "otgo.NewOTID: invalid subject params".data) ∧
    (∃ e, ParseOTID "otid:localhost:app:auth:".data = Except.error e) ∧
    (∃ e, NewOTID "localhost".data [[], []] = Except.error e) ∧
    ((tdNewOTID "localhost".data [] []).Validate = Except.ok () ∧
      (tdNewOTID "localhost".data [] []).IsDomainID = true) ∧
    (∃ e, NewOTID "localhost".data ["user".data, []] = Except.error e) ∧
    (∃ e, NewOTID "localhost".data [[], "abc".data] = Except.error e) := by
  have hcount : ∀ td subject (o : OTID), NewOTID td subject = Except.ok o →
      subject.length = 0 ∨ subject.length = 2 := by
    intro td subject o h
    obtain ⟨ty, i, _, _, hshape⟩ := newOTID_ok_elim h
    rcases hshape with ⟨rfl, _, _⟩ | rfl
    · exact Or.inl rfl
    · exact Or.inr rfl
  refine ⟨hcount, ?_, ?_, ⟨_, rfl⟩, ⟨_, rfl⟩, ⟨rfl, rfl⟩, ⟨_, rfl⟩, ⟨_, rfl⟩⟩
  · intro s o h
    obtain ⟨td, rest, hss, hnew⟩ := parse_ok_shape h
    rcases hcount td rest o hnew with h0 | h2
    · left
      rw [hss, List.length_cons, List.length_cons, h0]
    · right
      rw [hss, List.length_cons, List.length_cons, h2]
  · intro td t i h
    simp only [NewOTID]
    rw [if_pos h]

/-- C5 witness: the amended statement evaluated at
`NewOTID("localhost", "user", "")` and at an accepted two-segment subject. -/
theorem subject_segment_counts_witness :
    NewOTID "localhost".data ["user".data, []] =
      Except.error "otgo.NewOTID: invalid subject params".data ∧
    ((["user".data, "abc".data] : List Str).length = 0 ∨
      (["user".data, "abc".data] : List Str).length = 2) :=
  ⟨subject_segment_counts.2.2.1 "localhost".data "user".data [] (Or.inr rfl),
   subject_segment_counts.1 "localhost".data ["user".data, "abc".data]
     (tdNewOTID "localhost".data "user".data "abc".data) (by rfl)⟩

end OtGo
